import Mathlib

/-!
# SlotSurgeon — verified model of the storage-layout core

A shallow embedding of the three core components of the SlotSurgeon
repository, translated from the TypeScript source:

* `SlotCalculator.calculateSlots` (src/core/slot-mapper/slot-calculator.ts),
* `CollisionDetector.compare` and `CollisionDetector.detect`
  (src/core/slot-mapper/collision-detector.ts),
* `UpgradeAnalyzer.analyze` (src/core/slot-mapper/upgrade-analyzer.ts),

together with theorems settling the specification claims about them.

JavaScript `Map` objects are modelled by association lists with
insert-or-replace semantics (`jsInsert`); JavaScript number division is
modelled over `ℚ` with `Option` (`none` standing for the non-finite
results NaN/Infinity of dividing by zero); string unions such as
`'safe' | 'warning' | 'critical'` are modelled by `String`.
-/

/-- `StateVariable` from src/core/parser/types.ts: a declared variable of
the input contract model. -/
structure StateVariable where
  name : String
  typeName : String
  visibility : String
  isConstant : Bool
  isImmutable : Bool
  initialValue : Option String
  deriving Repr, DecidableEq

/-- The part of `ContractAST` (src/core/parser/types.ts) consumed by the
layout calculator: the contract name and the ordered declared variables. -/
structure ContractAST where
  name : String
  stateVariables : List StateVariable
  deriving Repr, DecidableEq

/-- `StorageVariable` from src/types/slot-mapping.ts. -/
structure StorageVariable where
  name : String
  type : String
  slot : Nat
  offset : Nat
  size : Nat
  packed : Bool
  isStateVariable : Bool
  deriving Repr, DecidableEq

/-- `SlotMapping` from src/types/slot-mapping.ts (`vars` models the TS
field `variables`, whose name Lean reserves). -/
structure SlotMapping where
  contractName : String
  vars : List StorageVariable
  totalSlots : Nat
  packedSlots : List Nat
  deriving Repr, DecidableEq

/-- Model of JavaScript `String.prototype.includes` on character lists:
`startsWithSeq l sub` is true when `sub` is a prefix of `l`. -/
def startsWithSeq : List Char → List Char → Bool
  | _, [] => true
  | [], _ :: _ => false
  | c :: cs, d :: ds => c == d && startsWithSeq cs ds

/-- `containsSeq sub l` is true when `sub` occurs contiguously in `l`. -/
def containsSeq (sub : List Char) : List Char → Bool
  | [] => sub.isEmpty
  | c :: cs => startsWithSeq (c :: cs) sub || containsSeq sub cs

/-- JavaScript `s.includes(sub)`. -/
def strIncludes (s sub : String) : Bool := containsSeq sub.data s.data

namespace SlotCalculator

/-- The `sizeMap` table of `SlotCalculator.getTypeSize`. -/
def sizeMap : List (String × Nat) :=
  [("bool", 1),
   ("uint8", 1), ("int8", 1),
   ("uint16", 2), ("int16", 2),
   ("uint32", 4), ("int32", 4),
   ("uint64", 8), ("int64", 8),
   ("uint128", 16), ("int128", 16),
   ("uint256", 32), ("int256", 32),
   ("uint", 32), ("int", 32),
   ("address", 20),
   ("bytes1", 1), ("bytes2", 2), ("bytes4", 4), ("bytes8", 8),
   ("bytes16", 16), ("bytes32", 32),
   ("string", 32),
   ("bytes", 32)]

/-- `SlotCalculator.getTypeSize`: array and mapping types occupy a full
slot, otherwise the size table is consulted with a 32-byte default. -/
def getTypeSize (typeName : String) : Nat :=
  if strIncludes typeName "[]" then 32
  else if strIncludes typeName "mapping" then 32
  else (sizeMap.lookup typeName).getD 32

/-- The record pushed by the loop body of `calculateSlots` once the
`(slot, offset)` position of the variable has been fixed. -/
def mkStorageVar (v : StateVariable) (slot offset : Nat) : StorageVariable :=
  { name := v.name
    type := v.typeName
    slot := slot
    offset := offset
    size := getTypeSize v.typeName
    packed := decide (offset > 0) || decide (offset + getTypeSize v.typeName < 32)
    isStateVariable := true }

/-- The `forEach` loop of `calculateSlots`, carried out on the explicit
state `(currentSlot, currentOffset)`: if the variable does not fit in the
remainder of the current slot it is moved to the start of the next slot,
and after placing it the offset advances, rolling over to a fresh slot
once the current slot is full. -/
def calcLoop : List StateVariable → Nat → Nat → List StorageVariable
  | [], _, _ => []
  | v :: rest, currentSlot, currentOffset =>
    if currentOffset + getTypeSize v.typeName > 32 then
      mkStorageVar v (currentSlot + 1) 0 ::
        (if getTypeSize v.typeName ≥ 32 then
          calcLoop rest (currentSlot + 2) 0
        else
          calcLoop rest (currentSlot + 1) (getTypeSize v.typeName))
    else
      mkStorageVar v currentSlot currentOffset ::
        (if currentOffset + getTypeSize v.typeName ≥ 32 then
          calcLoop rest (currentSlot + 1) 0
        else
          calcLoop rest currentSlot (currentOffset + getTypeSize v.typeName))

/-- `Math.max(...variables.map(v => v.slot))` over a slot list (0 when
empty, which `calculateSlots` never consults). -/
def maxSlot (vars : List StorageVariable) : Nat :=
  vars.foldl (fun m v => max m v.slot) 0

/-- First-occurrence deduplication: the key order of a JavaScript `Map`
(or the element order of a `Set`) built by successive insertions. -/
def firstDedup {α : Type} [DecidableEq α] (seen : List α) : List α → List α
  | [] => []
  | a :: l => if a ∈ seen then firstDedup seen l else a :: firstDedup (a :: seen) l

/-- Number of variables assigned to slot `s`. -/
def countInSlot (vars : List StorageVariable) (s : Nat) : Nat :=
  (vars.filter (fun v => v.slot == s)).length

/-- The `packedSlots` computation of `calculateSlots`: slots holding more
than one variable, in first-occurrence order of the `slotGroups` map. -/
def packedSlotsOf (vars : List StorageVariable) : List Nat :=
  (firstDedup [] (vars.map (fun v => v.slot))).filter (fun s => decide (countInSlot vars s > 1))

/-- `SlotCalculator.calculateSlots`. -/
def calculateSlots (contract : ContractAST) : SlotMapping :=
  let vs := calcLoop contract.stateVariables 0 0
  { contractName := contract.name
    vars := vs
    totalSlots := if vs.length > 0 then maxSlot vs + 1 else 0
    packedSlots := packedSlotsOf vs }

end SlotCalculator

/-- Sum of the sizes of the variables a mapping assigns to slot `s`. -/
def sumSizesInSlot (vars : List StorageVariable) (s : Nat) : Nat :=
  ((vars.filter (fun v => v.slot == s)).map (fun v => v.size)).sum

/-- The contract of the worked example in the spec:
`uint256 value; address owner; bool isActive; uint8 smallNumber;`. -/
def exampleContract : ContractAST :=
  { name := "MockContract"
    stateVariables :=
      [ { name := "value", typeName := "uint256", visibility := "public",
          isConstant := false, isImmutable := false, initialValue := none },
        { name := "owner", typeName := "address", visibility := "public",
          isConstant := false, isImmutable := false, initialValue := none },
        { name := "isActive", typeName := "bool", visibility := "public",
          isConstant := false, isImmutable := false, initialValue := none },
        { name := "smallNumber", typeName := "uint8", visibility := "public",
          isConstant := false, isImmutable := false, initialValue := none } ] }

/-- The `owner` entry of the worked example's calculator output. -/
def ownerStorageVar : StorageVariable :=
  { name := "owner", type := "address", slot := 1, offset := 0, size := 20,
    packed := true, isStateVariable := true }

/-- `Collision` from src/core/slot-mapper/collision-detector.ts. -/
structure Collision where
  slot : Nat
  range : Nat × Nat
  v1 : StorageVariable
  v2 : StorageVariable
  reason : String
  deriving Repr, DecidableEq

/-- `CollisionReport` from src/core/slot-mapper/collision-detector.ts. -/
structure CollisionReport where
  contract : String
  collisions : List Collision
  moved : List StorageVariable
  added : List StorageVariable
  removed : List StorageVariable
  safe : Bool
  deriving Repr, DecidableEq

/-- `CollisionVariable` from collision-detector.ts. -/
structure CollisionVariable where
  name : String
  type : String
  contract : Option String
  size : Nat
  offset : Nat
  deriving Repr, DecidableEq

/-- `StorageCollision` from collision-detector.ts (`vars` models the TS
field `variables`; the union types are modelled as strings). -/
structure StorageCollision where
  id : String
  type : String
  severity : String
  slot : Nat
  vars : List CollisionVariable
  description : String
  impact : String
  recommendation : String
  gasImpact : Option Nat
  deriving Repr, DecidableEq

/-- One insertion into a JavaScript `Map` held as an association list:
`map.set(k, v)` updates the existing entry in place when the key is
present (JS maps hold each key once), and appends otherwise. -/
def jsInsert {α : Type} : List (String × α) → String → α → List (String × α)
  | [], k, v => [(k, v)]
  | p :: m, k, v => if p.1 == k then (k, v) :: m else p :: jsInsert m k v

/-- `new Map(list.map(v => [key v, v]))`: later entries win, key order is
first-insertion order. -/
def jsMapOf {α : Type} (key : α → String) (l : List α) : List (String × α) :=
  l.foldl (fun m v => jsInsert m (key v) v) []

namespace CollisionDetector

/-- `${v.name}|${v.type}` — the identity used for cross-version matching. -/
def byKey (v : StorageVariable) : String := v.name ++ "|" ++ v.type

/-- `CollisionDetector.calculateSeverity`. -/
def calculateSeverity (vs : List StorageVariable) (totalSize : Nat) : String :=
  if totalSize > 64 then "critical"
  else if totalSize > 48 then "high"
  else if vs.length > 3 then "medium"
  else "low"

/-- `CollisionDetector.getImpactDescription`. -/
def getImpactDescription (severity : String) : String :=
  if severity == "critical" then "Critical storage corruption risk"
  else if severity == "high" then "High risk of data corruption"
  else if severity == "medium" then "Potential storage conflicts"
  else if severity == "low" then "Minor storage inefficiency"
  else "Storage layout issue"

/-- `CollisionDetector.getRecommendation`. -/
def getRecommendation (_vs : List StorageVariable) : String :=
  "Reorganize variables to prevent slot overlap. Consider using smaller data types or packing variables efficiently."

/-- `CollisionDetector.estimateGasImpact`. -/
def estimateGasImpact (vs : List StorageVariable) : Nat := vs.length * 20000

/-- `CollisionDetector.analyzeSlotCollision`: flags a slot whose combined
variable size exceeds 32 bytes. -/
def analyzeSlotCollision (slot : Nat) (vs : List StorageVariable) : Option StorageCollision :=
  if vs.length ≤ 1 then none
  else if (vs.map (fun v => v.size)).sum > 32 then
    some { id := "collision_slot_" ++ toString slot
           type := "variable_overlap"
           severity := calculateSeverity vs ((vs.map (fun v => v.size)).sum)
           slot := slot
           vars := vs.map (fun v =>
             { name := v.name, type := v.type, contract := none,
               size := v.size, offset := v.offset })
           description := "Multiple variables overlap in slot " ++ toString slot
           impact := getImpactDescription (calculateSeverity vs ((vs.map (fun v => v.size)).sum))
           recommendation := getRecommendation vs
           gasImpact := some (estimateGasImpact vs) }
  else none

/-- `CollisionDetector.groupVariablesBySlot`: the slot-indexed groups, in
first-occurrence order, each group in declaration order. -/
def groupVariablesBySlot (vs : List StorageVariable) : List (Nat × List StorageVariable) :=
  (SlotCalculator.firstDedup [] (vs.map (fun v => v.slot))).map
    (fun s => (s, vs.filter (fun v => v.slot == s)))

/-- `CollisionDetector.detect`: the single-mapping defensive scan. -/
def detect (m : SlotMapping) : List StorageCollision :=
  (groupVariablesBySlot m.vars).filterMap
    (fun p => if p.2.length > 1 then analyzeSlotCollision p.1 p.2 else none)

end CollisionDetector

/-- JavaScript `map.get(k)` on the association-list model: the value at
the first (and, for maps built by `jsInsert`, only) matching key. -/
def jsGet {α : Type} (m : List (String × α)) (k : String) : Option α :=
  match m with
  | [] => none
  | p :: m => if p.1 == k then some p.2 else jsGet m k

namespace CollisionDetector

/-- `new Map(m.variables.map(v => [byKey(v), v]))`. -/
def keysOf (m : SlotMapping) : List (String × StorageVariable) :=
  jsMapOf byKey m.vars

/-- The `removed` list of `compare`: entries of `v1`'s key map whose key
is absent from `v2`'s. -/
def removedOf (v1 v2 : SlotMapping) : List StorageVariable :=
  ((keysOf v1).filter (fun p => !((keysOf v2).any (fun q => q.1 == p.1)))).map
    (fun p => p.2)

/-- The `moved` list of `compare`: keys present in both maps whose slot
or offset changed; the `v2` variable is reported. -/
def movedOf (v1 v2 : SlotMapping) : List StorageVariable :=
  (keysOf v1).filterMap (fun p =>
    match jsGet (keysOf v2) p.1 with
    | none => none
    | some var2 =>
      if var2.slot != p.2.slot || var2.offset != p.2.offset then some var2 else none)

/-- The `added` list of `compare`: entries of `v2`'s key map whose key
is absent from `v1`'s. -/
def addedOf (v1 v2 : SlotMapping) : List StorageVariable :=
  ((keysOf v2).filter (fun p => !((keysOf v1).any (fun q => q.1 == p.1)))).map
    (fun p => p.2)

/-- `occ[slot] ?? []`: the variables a mapping puts in slot `s`, in
declaration order. -/
def listAt (m : SlotMapping) (s : Nat) : List StorageVariable :=
  m.vars.filter (fun v => v.slot == s)

/-- Insertion into a sorted list, for the ascending numeric key order of
JavaScript objects with integer keys. -/
def insertSorted (x : Nat) : List Nat → List Nat
  | [] => [x]
  | y :: l => if x ≤ y then x :: y :: l else y :: insertSorted x l

/-- Ascending sort (insertion sort). -/
def sortNat (l : List Nat) : List Nat := l.foldr insertSorted []

/-- The `slots` set of `compare`: keys of `occ1` then keys of `occ2`
(each ascending, as JavaScript integer object keys), deduplicated in
first-insertion order. -/
def slotsOf (v1 v2 : SlotMapping) : List Nat :=
  SlotCalculator.firstDedup []
    (sortNat (SlotCalculator.firstDedup [] (v1.vars.map (fun v => v.slot))) ++
      sortNat (SlotCalculator.firstDedup [] (v2.vars.map (fun v => v.slot))))

/-- The body of the innermost loop of `compare`: skip pairs involving a
moved key, then flag overlapping byte ranges unless name and type agree. -/
def innerCheck (movedKeys : List String) (s : Nat) (a b : StorageVariable) : Option Collision :=
  if movedKeys.contains (byKey a) || movedKeys.contains (byKey b) then none
  else if decide (a.offset < b.offset + b.size) && decide (b.offset < a.offset + a.size) then
    if a.name == b.name && a.type == b.type then none
    else some
      { slot := s
        range := (max a.offset b.offset,
          min (a.offset + a.size - 1) (b.offset + b.size - 1))
        v1 := a
        v2 := b
        reason :=
          if a.name != b.name then
            "different variables occupy same bytes (" ++ a.name ++ " vs " ++ b.name ++ ")"
          else
            "same variable has different type (" ++ a.type ++ " vs " ++ b.type ++ ")" }
  else none

/-- The collision scan of `compare` over all occupied slots. -/
def collisionsOf (v1 v2 : SlotMapping) (movedKeys : List String) : List Collision :=
  (slotsOf v1 v2).flatMap (fun s =>
    (listAt v1 s).flatMap (fun a =>
      (listAt v2 s).filterMap (fun b => innerCheck movedKeys s a b)))

/-- `CollisionDetector.compare`. -/
def compare (v1 v2 : SlotMapping) : CollisionReport :=
  let moved := movedOf v1 v2
  let collisions := collisionsOf v1 v2 (moved.map byKey)
  { contract := v1.contractName
    collisions := collisions
    moved := moved
    added := addedOf v1 v2
    removed := removedOf v1 v2
    safe := !(decide (moved.length > 0) || decide (collisions.length > 0)) }

end CollisionDetector

/-- A hand-built (not calculator-produced) mapping in which two distinct
variables overlap in slot 0. -/
def selfOverlapMapping : SlotMapping :=
  { contractName := "Weird"
    vars :=
      [ { name := "a", type := "uint256", slot := 0, offset := 0, size := 32,
          packed := false, isStateVariable := true },
        { name := "b", type := "uint256", slot := 0, offset := 0, size := 32,
          packed := false, isStateVariable := true } ]
    totalSlots := 1
    packedSlots := [0] }

/-- A well-formed single-variable mapping. -/
def singleVarMapping : SlotMapping :=
  { contractName := "Simple"
    vars :=
      [ { name := "x", type := "uint256", slot := 0, offset := 0, size := 32,
          packed := false, isStateVariable := true } ]
    totalSlots := 1
    packedSlots := [] }

/-- The `v1` of the C4 counterexample: itself contains two distinct
overlapping variables in slot 0. -/
def appendBadV1 : SlotMapping :=
  { contractName := "WeirdBase"
    vars :=
      [ { name := "a", type := "uint256", slot := 0, offset := 0, size := 32,
          packed := false, isStateVariable := true },
        { name := "b", type := "uint256", slot := 0, offset := 0, size := 32,
          packed := false, isStateVariable := true } ]
    totalSlots := 1
    packedSlots := [0] }

/-- The trailing variable appended in the C4 counterexample: fresh name,
fresh slot. -/
def appendBadNewVar : StorageVariable :=
  { name := "c", type := "uint256", slot := 1, offset := 0, size := 32,
    packed := false, isStateVariable := true }

/-- The `v2` of the C4 counterexample: exactly `appendBadV1`'s variables
plus one trailing variable in a previously-unused slot. -/
def appendBadV2 : SlotMapping :=
  { contractName := "WeirdBase"
    vars := appendBadV1.vars ++ [appendBadNewVar]
    totalSlots := 2
    packedSlots := [0] }

/-- The `v2` used in the C4 witness: the single-variable mapping plus one
fresh trailing variable in slot 1. -/
def appendGoodV2 : SlotMapping :=
  { contractName := "Simple"
    vars :=
      [ { name := "x", type := "uint256", slot := 0, offset := 0, size := 32,
          packed := false, isStateVariable := true },
        { name := "y", type := "address", slot := 1, offset := 0, size := 20,
          packed := true, isStateVariable := true } ]
    totalSlots := 2
    packedSlots := [] }

/-- `UpgradeChange` from src/core/slot-mapper/upgrade-analyzer.ts (`var`
models the TS field `variable`, whose name Lean reserves; the union
types are modelled as strings). -/
structure UpgradeChange where
  type : String
  var : StorageVariable
  oldVariable : Option StorageVariable
  severity : String
  description : String
  recommendation : Option String
  deriving Repr, DecidableEq

/-- `UpgradeCompatibility` from upgrade-analyzer.ts. -/
structure UpgradeCompatibility where
  score : Int
  level : String
  description : String
  deriving Repr, DecidableEq

/-- The inline `v1Summary`/`v2Summary` record of `UpgradeAnalysis`
(`vars` models the TS field `variables`). -/
structure VersionSummary where
  totalSlots : Nat
  vars : Nat
  packedSlots : Nat
  deriving Repr, DecidableEq

/-- The inline `storageGrowth` record of `UpgradeAnalysis`. JavaScript
number division is modelled over `ℚ` with `none` for the non-finite
result of dividing by zero (NaN/Infinity), so `efficiencyChange` is an
`Option ℚ`. -/
structure StorageGrowth where
  slotsAdded : Int
  bytesWasted : Int
  efficiencyChange : Option ℚ
  deriving Repr, DecidableEq

/-- `UpgradeAnalysis` from upgrade-analyzer.ts. -/
structure UpgradeAnalysis where
  contractName : String
  v1Summary : VersionSummary
  v2Summary : VersionSummary
  changes : List UpgradeChange
  compatibility : UpgradeCompatibility
  recommendations : List String
  collisionReport : CollisionReport
  storageGrowth : StorageGrowth
  deriving Repr, DecidableEq

/-- JavaScript division on finite numbers: `none` models the non-finite
NaN/Infinity outcome of a zero divisor. -/
def jsDiv (a b : ℚ) : Option ℚ := if b = 0 then none else some (a / b)

namespace UpgradeAnalyzer

/-- The name key of `v1NameMap`/`v2NameMap` in `identifyChanges`. -/
def nameKey (v : StorageVariable) : String := v.name

/-- The change record pushed for a collision. -/
def mkCollisionChange (c : Collision) : UpgradeChange :=
  { type := "collision"
    var := c.v2
    oldVariable := some c.v1
    severity := "critical"
    description := "Storage collision: " ++ c.reason
    recommendation :=
      some ("This collision will corrupt storage. Consider adding new variables at the end instead.") }

/-- The change record pushed for a moved variable. -/
def mkMovedChange (v1VarMap : List (String × StorageVariable)) (v : StorageVariable) :
    UpgradeChange :=
  { type := "moved"
    var := v
    oldVariable := jsGet v1VarMap (CollisionDetector.byKey v)
    severity := "critical"
    description := "Variable \"" ++ v.name ++ "\" moved from slot " ++
      (match jsGet v1VarMap (CollisionDetector.byKey v) with
       | some o => toString o.slot
       | none => "undefined") ++ " to slot " ++ toString v.slot
    recommendation :=
      some ("Moving variables breaks storage layout. Add new variables at the end instead.") }

/-- The change record pushed for a removed variable. -/
def mkRemovedChange (v : StorageVariable) : UpgradeChange :=
  { type := "removed"
    var := v
    oldVariable := none
    severity := "warning"
    description := "Variable \"" ++ v.name ++ "\" removed from storage"
    recommendation :=
      some ("Removing variables can break dependent contracts. Consider deprecation instead.") }

/-- The change record pushed for an added variable. -/
def mkAddedChange (v : StorageVariable) : UpgradeChange :=
  { type := "added"
    var := v
    oldVariable := none
    severity := "safe"
    description := "New variable \"" ++ v.name ++ "\" added at slot " ++ toString v.slot
    recommendation := some ("Adding variables at the end is safe for upgrades.") }

/-- The body of the same-name/different-type loop of `identifyChanges`,
applied to one `v2NameMap` entry. -/
def typeChangedFor (v1 : SlotMapping) (p : String × StorageVariable) : Option UpgradeChange :=
  match jsGet (jsMapOf nameKey v1.vars) p.1 with
  | some v1Var =>
    if v1Var.type != p.2.type then
      some { type := "typeChanged"
             var := p.2
             oldVariable := some v1Var
             severity := "critical"
             description := "Variable \"" ++ p.1 ++ "\" type changed from " ++
               v1Var.type ++ " to " ++ p.2.type
             recommendation :=
               some ("Type changes can corrupt data. Use a new variable name instead.") }
    else none
  | none => none

/-- The same-name/different-type loop at the end of `identifyChanges`:
one `typeChanged` change per `v2NameMap` entry whose name also appears
in `v1NameMap` with a different declared type. -/
def typeChangedPart (v1 v2 : SlotMapping) : List UpgradeChange :=
  (jsMapOf nameKey v2.vars).filterMap (typeChangedFor v1)

/-- `UpgradeAnalyzer.identifyChanges`. -/
def identifyChanges (v1 v2 : SlotMapping) (rep : CollisionReport) : List UpgradeChange :=
  (rep.collisions.map mkCollisionChange) ++
  (rep.moved.map (mkMovedChange (jsMapOf CollisionDetector.byKey v1.vars))) ++
  (rep.removed.map mkRemovedChange) ++
  (rep.added.map mkAddedChange) ++
  typeChangedPart v1 v2

/-- `UpgradeAnalyzer.assessCompatibility`. -/
def assessCompatibility (changes : List UpgradeChange) (_rep : CollisionReport) :
    UpgradeCompatibility :=
  if (changes.filter (fun c => c.severity == "critical")).length > 0 then
    { score := max 0 (100 -
        40 * ((changes.filter (fun c => c.severity == "critical")).length : Int) -
        15 * ((changes.filter (fun c => c.severity == "warning")).length : Int))
      level := "critical"
      description := "Critical storage layout conflicts detected. Upgrade will likely fail or corrupt data." }
  else if (changes.filter (fun c => c.severity == "warning")).length > 2 then
    { score := max 0 (100 -
        40 * ((changes.filter (fun c => c.severity == "critical")).length : Int) -
        15 * ((changes.filter (fun c => c.severity == "warning")).length : Int))
      level := "unsafe"
      description := "Multiple warnings detected. Upgrade may cause issues." }
  else if (changes.filter (fun c => c.severity == "warning")).length > 0 then
    { score := max 0 (100 -
        40 * ((changes.filter (fun c => c.severity == "critical")).length : Int) -
        15 * ((changes.filter (fun c => c.severity == "warning")).length : Int))
      level := "caution"
      description := "Some warnings detected. Review carefully before upgrading." }
  else
    { score := max 0 (100 -
        40 * ((changes.filter (fun c => c.severity == "critical")).length : Int) -
        15 * ((changes.filter (fun c => c.severity == "warning")).length : Int))
      level := "safe"
      description := "Storage layout is upgrade-safe. Only new variables added." }

/-- `UpgradeAnalyzer.calculateEfficiency` (no zero-slot guard). -/
def calculateEfficiency (m : SlotMapping) : Option ℚ :=
  (jsDiv (((m.vars.map (fun v => v.size)).sum : Nat) : ℚ)
    ((m.totalSlots * 32 : Nat) : ℚ)).map (fun x => x * 100)

/-- `UpgradeAnalyzer.generateRecommendations`. -/
def generateRecommendations (changes : List UpgradeChange) (v1 v2 : SlotMapping) :
    List String :=
  let recs : List String :=
    (if (changes.filter (fun c => c.severity == "critical")).length > 0 then
      ["🚨 CRITICAL: Do not deploy this upgrade. " ++
         toString (changes.filter (fun c => c.severity == "critical")).length ++
         " critical issues found.",
       "• Consider creating a new contract with proper storage layout instead of upgrading."]
     else []) ++
    (if (changes.filter (fun c => c.severity == "warning")).length > 0 then
      ["⚠️  " ++ toString (changes.filter (fun c => c.severity == "warning")).length ++
         " warnings detected. Test thoroughly before deployment."]
     else []) ++
    (match calculateEfficiency v1, calculateEfficiency v2 with
     | some e1, some e2 =>
       if e2 < e1 - 10 then
         ["📉 Storage efficiency decreased by " ++ toString (round (e1 - e2) : Int) ++
            "%. Consider variable reordering."]
       else []
     | _, _ => []) ++
    (if (v2.totalSlots : Int) - (v1.totalSlots : Int) > 5 then
      ["📈 Storage grew by " ++ toString ((v2.totalSlots : Int) - (v1.totalSlots : Int)) ++
         " slots. Consider gas cost implications for users."]
     else [])
  if recs.isEmpty then ["✅ Upgrade appears safe. All new variables added at the end."]
  else recs

/-- `UpgradeAnalyzer.calculateStorageGrowth` (no zero-slot guard: on a
zero-slot mapping the efficiency division has divisor 0 and the change
is not a finite number). -/
def calculateStorageGrowth (v1 v2 : SlotMapping) : StorageGrowth :=
  { slotsAdded := (v2.totalSlots : Int) - (v1.totalSlots : Int)
    bytesWasted :=
      (((v2.totalSlots * 32 : Nat) : Int) - (((v2.vars.map (fun v => v.size)).sum : Nat) : Int)) -
      (((v1.totalSlots * 32 : Nat) : Int) - (((v1.vars.map (fun v => v.size)).sum : Nat) : Int))
    efficiencyChange :=
      match (jsDiv (((v2.vars.map (fun v => v.size)).sum : Nat) : ℚ)
              ((v2.totalSlots * 32 : Nat) : ℚ)).map (fun x => x * 100),
            (jsDiv (((v1.vars.map (fun v => v.size)).sum : Nat) : ℚ)
              ((v1.totalSlots * 32 : Nat) : ℚ)).map (fun x => x * 100) with
      | some a, some b => some (((round ((a - b) * 100) : Int) : ℚ) / 100)
      | _, _ => none }

/-- `UpgradeAnalyzer.analyze`. -/
def analyze (v1 v2 : SlotMapping) : UpgradeAnalysis :=
  let collisionReport := CollisionDetector.compare v1 v2
  let changes := identifyChanges v1 v2 collisionReport
  { contractName := v1.contractName
    v1Summary :=
      { totalSlots := v1.totalSlots, vars := v1.vars.length,
        packedSlots := v1.packedSlots.length }
    v2Summary :=
      { totalSlots := v2.totalSlots, vars := v2.vars.length,
        packedSlots := v2.packedSlots.length }
    changes := changes
    compatibility := assessCompatibility changes collisionReport
    recommendations := generateRecommendations changes v1 v2
    collisionReport := collisionReport
    storageGrowth := calculateStorageGrowth v1 v2 }

end UpgradeAnalyzer

/-- The declared type a mapping's variables give a name: the type of the
last declaration with that name (how a JavaScript `Map` resolves
duplicate keys). -/
def lastTypeOf (m : SlotMapping) (n : String) : Option String :=
  (m.vars.reverse.find? (fun v => v.name == n)).map (fun v => v.type)

/-- Whether a name is declared in both mappings with differing types. -/
def typeDifferAt (v1 v2 : SlotMapping) (n : String) : Bool :=
  match lastTypeOf v1 n, lastTypeOf v2 n with
  | some t1, some t2 => t1 != t2
  | _, _ => false

/-- The variable names present in both mappings whose declared type
differs — the specification-side description of the `typeChanged` loop. -/
def namesWithTypeChanged (v1 v2 : SlotMapping) : List String :=
  (SlotCalculator.firstDedup [] (v2.vars.map (fun v => v.name))).filter (typeDifferAt v1 v2)

/-- The severity the spec assigns each change type. -/
def severityForType (t : String) : String :=
  if t == "collision" || t == "moved" || t == "typeChanged" then "critical"
  else if t == "removed" then "warning"
  else "safe"

/-- A contract model with no declared variables. -/
def emptyContract : ContractAST := { name := "Empty", stateVariables := [] }

/-- A contract model whose single declared variable is flagged
`isConstant` (as the parser flags `uint256 constant MAX = 100`). -/
def constContract : ContractAST :=
  { name := "HasConstant"
    stateVariables :=
      [ { name := "MAX", typeName := "uint256", visibility := "internal",
          isConstant := true, isImmutable := false, initialValue := some "100" } ] }

set_option maxHeartbeats 1000000

/-- C1: the worked example packs `value` alone into slot 0 and the three
small variables into slot 1 at offsets 0, 20, 21, with 2 slots in total
and slot 1 the only packed slot. -/
theorem calculateSlots_example_layout :
    ((SlotCalculator.calculateSlots exampleContract).vars.map
        (fun v => (v.name, v.slot, v.offset, v.size))) =
      [("value", 0, 0, 32), ("owner", 1, 0, 20),
       ("isActive", 1, 20, 1), ("smallNumber", 1, 21, 1)] ∧
    (SlotCalculator.calculateSlots exampleContract).totalSlots = 2 ∧
    (SlotCalculator.calculateSlots exampleContract).packedSlots = [1] := by
  refine ⟨?_, ?_, ?_⟩ <;> rfl

lemma lookup_getD_le_of_all {l : List (String × Nat)} (k : String)
    (h : ∀ p ∈ l, p.2 ≤ 32) : (l.lookup k).getD 32 ≤ 32 := by
  induction l with
  | nil => simp
  | cons p l ih =>
    obtain ⟨k', v⟩ := p
    rw [List.lookup_cons]
    by_cases hk : k == k'
    · simpa [hk] using h (k', v) (by simp)
    · simp only [hk]
      exact ih (fun q hq => h q (by simp [hq]))

/-- Every type size returned by `getTypeSize` is at most a full slot. -/
lemma getTypeSize_le (t : String) : SlotCalculator.getTypeSize t ≤ 32 := by
  unfold SlotCalculator.getTypeSize
  split
  · exact le_refl 32
  · split
    · exact le_refl 32
    · exact lookup_getD_le_of_all t (by decide)

lemma sumSizesInSlot_nil (s : Nat) : sumSizesInSlot [] s = 0 := rfl

lemma sumSizesInSlot_cons (v : StorageVariable) (l : List StorageVariable) (s : Nat) :
    sumSizesInSlot (v :: l) s =
      (if v.slot = s then v.size else 0) + sumSizesInSlot l s := by
  by_cases h : v.slot = s <;> simp [sumSizesInSlot, List.filter_cons, h]

/-- Main invariant of the packing loop: starting at `(cs, co)` with
`co < 32`, no variable is placed before slot `cs`, the bytes placed into
slot `cs` fit in the `32 - co` bytes that remain, and every slot
receives at most 32 bytes. -/
lemma calcLoop_inv (vs : List StateVariable) :
    ∀ cs co, co < 32 →
      (∀ s, s < cs → sumSizesInSlot (SlotCalculator.calcLoop vs cs co) s = 0) ∧
      (sumSizesInSlot (SlotCalculator.calcLoop vs cs co) cs + co ≤ 32) ∧
      (∀ s, sumSizesInSlot (SlotCalculator.calcLoop vs cs co) s ≤ 32) := by
  induction vs with
  | nil =>
    intro cs co hco
    refine ⟨fun s _ => rfl, ?_, fun s => ?_⟩
    · simp [SlotCalculator.calcLoop, sumSizesInSlot_nil]
      omega
    · simp [SlotCalculator.calcLoop, sumSizesInSlot_nil]
  | cons v rest ih =>
    intro cs co hco
    have hsize := getTypeSize_le v.typeName
    rw [SlotCalculator.calcLoop]
    by_cases h1 : co + SlotCalculator.getTypeSize v.typeName > 32
    · rw [if_pos h1]
      by_cases h2 : SlotCalculator.getTypeSize v.typeName ≥ 32
      · rw [if_pos h2]
        obtain ⟨ha, hb, hc⟩ := ih (cs + 2) 0 (by omega)
        refine ⟨fun s hs => ?_, ?_, fun s => ?_⟩
        · rw [sumSizesInSlot_cons]
          have : (SlotCalculator.mkStorageVar v (cs + 1) 0).slot = cs + 1 := rfl
          rw [this]
          have := ha s (by omega)
          split <;> omega
        · rw [sumSizesInSlot_cons]
          have : (SlotCalculator.mkStorageVar v (cs + 1) 0).slot = cs + 1 := rfl
          rw [this]
          have := ha cs (by omega)
          split <;> omega
        · rw [sumSizesInSlot_cons]
          have hslot : (SlotCalculator.mkStorageVar v (cs + 1) 0).slot = cs + 1 := rfl
          have hsz : (SlotCalculator.mkStorageVar v (cs + 1) 0).size =
              SlotCalculator.getTypeSize v.typeName := rfl
          rw [hslot, hsz]
          have h3 := hc s
          have h4 := ha (cs + 1) (by omega)
          by_cases hscs : s = cs + 1
          · subst hscs
            split <;> omega
          · split <;> omega
      · rw [if_neg h2]
        obtain ⟨ha, hb, hc⟩ := ih (cs + 1) (SlotCalculator.getTypeSize v.typeName) (by omega)
        refine ⟨fun s hs => ?_, ?_, fun s => ?_⟩
        · rw [sumSizesInSlot_cons]
          have : (SlotCalculator.mkStorageVar v (cs + 1) 0).slot = cs + 1 := rfl
          rw [this]
          have := ha s (by omega)
          split <;> omega
        · rw [sumSizesInSlot_cons]
          have : (SlotCalculator.mkStorageVar v (cs + 1) 0).slot = cs + 1 := rfl
          rw [this]
          have := ha cs (by omega)
          split <;> omega
        · rw [sumSizesInSlot_cons]
          have hslot : (SlotCalculator.mkStorageVar v (cs + 1) 0).slot = cs + 1 := rfl
          have hsz : (SlotCalculator.mkStorageVar v (cs + 1) 0).size =
              SlotCalculator.getTypeSize v.typeName := rfl
          rw [hslot, hsz]
          have h3 := hc s
          have h4 := hb
          have h5 := ha (cs + 1)
          by_cases hscs : s = cs + 1
          · subst hscs
            split <;> omega
          · split <;> omega
    · rw [if_neg h1]
      by_cases h2 : co + SlotCalculator.getTypeSize v.typeName ≥ 32
      · rw [if_pos h2]
        obtain ⟨ha, hb, hc⟩ := ih (cs + 1) 0 (by omega)
        refine ⟨fun s hs => ?_, ?_, fun s => ?_⟩
        · rw [sumSizesInSlot_cons]
          have : (SlotCalculator.mkStorageVar v cs co).slot = cs := rfl
          rw [this]
          have := ha s (by omega)
          split <;> omega
        · rw [sumSizesInSlot_cons]
          have hslot : (SlotCalculator.mkStorageVar v cs co).slot = cs := rfl
          have hsz : (SlotCalculator.mkStorageVar v cs co).size =
              SlotCalculator.getTypeSize v.typeName := rfl
          rw [hslot, hsz]
          have := ha cs (by omega)
          split <;> omega
        · rw [sumSizesInSlot_cons]
          have hslot : (SlotCalculator.mkStorageVar v cs co).slot = cs := rfl
          have hsz : (SlotCalculator.mkStorageVar v cs co).size =
              SlotCalculator.getTypeSize v.typeName := rfl
          rw [hslot, hsz]
          have h3 := hc s
          have h4 := ha cs (by omega)
          by_cases hscs : s = cs
          · subst hscs
            split <;> omega
          · split <;> omega
      · rw [if_neg h2]
        obtain ⟨ha, hb, hc⟩ :=
          ih cs (co + SlotCalculator.getTypeSize v.typeName) (by omega)
        refine ⟨fun s hs => ?_, ?_, fun s => ?_⟩
        · rw [sumSizesInSlot_cons]
          have : (SlotCalculator.mkStorageVar v cs co).slot = cs := rfl
          rw [this]
          have := ha s (by omega)
          split <;> omega
        · rw [sumSizesInSlot_cons]
          have hslot : (SlotCalculator.mkStorageVar v cs co).slot = cs := rfl
          have hsz : (SlotCalculator.mkStorageVar v cs co).size =
              SlotCalculator.getTypeSize v.typeName := rfl
          rw [hslot, hsz]
          split <;> omega
        · rw [sumSizesInSlot_cons]
          have hslot : (SlotCalculator.mkStorageVar v cs co).slot = cs := rfl
          have hsz : (SlotCalculator.mkStorageVar v cs co).size =
              SlotCalculator.getTypeSize v.typeName := rfl
          rw [hslot, hsz]
          have h3 := hc s
          have h4 := hb
          by_cases hscs : s = cs
          · subst hscs
            split <;> omega
          · split <;> omega

lemma calculateSlots_sum_le (contract : ContractAST) (s : Nat) :
    sumSizesInSlot (SlotCalculator.calculateSlots contract).vars s ≤ 32 := by
  have h := (calcLoop_inv contract.stateVariables 0 0 (by omega)).2.2 s
  simpa [SlotCalculator.calculateSlots] using h

/-- C2: in every mapping produced by the layout calculator, the variables
assigned to any single slot together occupy at most 32 bytes. -/
theorem calculateSlots_slot_size_le_32 (contract : ContractAST) (s : Nat) :
    sumSizesInSlot (SlotCalculator.calculateSlots contract).vars s ≤ 32 :=
  calculateSlots_sum_le contract s

/-- Every variable emitted by the packing loop is marked `packed` exactly
when its size is below 32 bytes. -/
lemma calcLoop_packed (vs : List StateVariable) :
    ∀ cs co, ∀ v ∈ SlotCalculator.calcLoop vs cs co, (v.packed = true ↔ v.size < 32) := by
  induction vs with
  | nil => intro cs co v hv; simp [SlotCalculator.calcLoop] at hv
  | cons w rest ih =>
    intro cs co v hv
    rw [SlotCalculator.calcLoop] at hv
    by_cases h1 : co + SlotCalculator.getTypeSize w.typeName > 32
    · rw [if_pos h1] at hv
      rcases List.mem_cons.mp hv with hv | hv
      · subst hv
        simp [SlotCalculator.mkStorageVar]
      · split at hv
        · exact ih _ _ v hv
        · exact ih _ _ v hv
    · rw [if_neg h1] at hv
      rcases List.mem_cons.mp hv with hv | hv
      · subst hv
        have hσ := getTypeSize_le w.typeName
        simp only [SlotCalculator.mkStorageVar, Bool.or_eq_true, decide_eq_true_eq]
        omega
      · split at hv
        · exact ih _ _ v hv
        · exact ih _ _ v hv

/-- C10: in calculator output, a variable's `packed` flag is true exactly
when its size is strictly below 32 bytes. -/
theorem packed_iff_size_lt_32 (contract : ContractAST) :
    ∀ v ∈ (SlotCalculator.calculateSlots contract).vars, (v.packed = true ↔ v.size < 32) := by
  intro v hv
  exact calcLoop_packed contract.stateVariables 0 0 v
    (by simpa [SlotCalculator.calculateSlots] using hv)

/-- Witness for C10 at a concrete calculator output. -/
theorem packed_iff_size_lt_32_witness :
    ownerStorageVar ∈ (SlotCalculator.calculateSlots exampleContract).vars ∧
    (ownerStorageVar.packed = true ↔ ownerStorageVar.size < 32) :=
  ⟨by decide, packed_iff_size_lt_32 exampleContract ownerStorageVar (by decide)⟩

/-- C8: the defensive single-mapping detector never fires on output of
the layout calculator, since no slot's combined size exceeds 32 bytes. -/
theorem detect_calculateSlots_eq_nil (contract : ContractAST) :
    CollisionDetector.detect (SlotCalculator.calculateSlots contract) = [] := by
  rw [CollisionDetector.detect, List.filterMap_eq_nil_iff]
  intro p hp
  rw [CollisionDetector.groupVariablesBySlot] at hp
  obtain ⟨s, hs, rfl⟩ := List.mem_map.mp hp
  dsimp only
  have hsum : ((((SlotCalculator.calculateSlots contract).vars.filter
      (fun v => v.slot == s)).map (fun v => v.size)).sum) ≤ 32 :=
    calculateSlots_sum_le contract s
  by_cases hlen : ((SlotCalculator.calculateSlots contract).vars.filter
      (fun v => v.slot == s)).length > 1
  · rw [if_pos hlen, CollisionDetector.analyzeSlotCollision,
      if_neg (by omega), if_neg (by omega)]
  · rw [if_neg hlen]

lemma mem_firstDedup {α : Type} [DecidableEq α] (l : List α) :
    ∀ (seen : List α) (x : α),
      x ∈ SlotCalculator.firstDedup seen l ↔ x ∈ l ∧ x ∉ seen := by
  induction l with
  | nil => intro seen x; simp [SlotCalculator.firstDedup]
  | cons a l ih =>
    intro seen x
    rw [SlotCalculator.firstDedup]
    by_cases ha : a ∈ seen
    · rw [if_pos ha, ih seen x]
      simp only [List.mem_cons]
      constructor
      · rintro ⟨h1, h2⟩; exact ⟨Or.inr h1, h2⟩
      · rintro ⟨h1 | h1, h2⟩
        · exact absurd (h1 ▸ ha) h2
        · exact ⟨h1, h2⟩
    · rw [if_neg ha]
      simp only [List.mem_cons, ih (a :: seen) x]
      constructor
      · rintro (rfl | ⟨h1, h2⟩)
        · exact ⟨Or.inl rfl, ha⟩
        · exact ⟨Or.inr h1, fun hs => h2 (Or.inr hs)⟩
      · rintro ⟨rfl | h1, h2⟩
        · exact Or.inl rfl
        · by_cases hx : x = a
          · exact Or.inl hx
          · refine Or.inr ⟨h1, fun hs => ?_⟩
            rcases hs with h | h
            · exact hx h
            · exact h2 h

lemma nodup_firstDedup {α : Type} [DecidableEq α] (l : List α) :
    ∀ seen : List α, (SlotCalculator.firstDedup seen l).Nodup := by
  induction l with
  | nil => intro seen; simp [SlotCalculator.firstDedup]
  | cons a l ih =>
    intro seen
    rw [SlotCalculator.firstDedup]
    by_cases ha : a ∈ seen
    · rw [if_pos ha]; exact ih seen
    · rw [if_neg ha]
      refine List.Nodup.cons ?_ (ih (a :: seen))
      intro hmem
      exact ((mem_firstDedup l (a :: seen) a).mp hmem).2 (List.mem_cons_self a seen)

lemma firstDedup_congr {α : Type} [DecidableEq α] (l : List α) :
    ∀ s1 s2 : List α, (∀ y, y ∈ s1 ↔ y ∈ s2) →
      SlotCalculator.firstDedup s1 l = SlotCalculator.firstDedup s2 l := by
  induction l with
  | nil => intro s1 s2 _; rfl
  | cons a l ih =>
    intro s1 s2 h
    rw [SlotCalculator.firstDedup, SlotCalculator.firstDedup]
    by_cases ha : a ∈ s1
    · rw [if_pos ha, if_pos ((h a).mp ha)]
      exact ih s1 s2 h
    · rw [if_neg ha, if_neg (fun hc => ha ((h a).mpr hc))]
      rw [ih (a :: s1) (a :: s2) (by intro y; simp [h y])]

lemma jsGet_append {α : Type} (l1 l2 : List (String × α)) (k : String) :
    jsGet (l1 ++ l2) k = (jsGet l1 k).or (jsGet l2 k) := by
  induction l1 with
  | nil => simp [jsGet]
  | cons p l1 ih =>
    by_cases hp : p.1 == k
    · simp [jsGet, hp]
    · simp only [List.cons_append]
      rw [jsGet, jsGet]
      simp only [hp, Bool.false_eq_true, if_false, ih]

/-- The effect of one JavaScript-`Map` insertion on `get`. -/
lemma jsGet_jsInsert {α : Type} (m : List (String × α)) (k : String) (v : α) (q : String) :
    jsGet (jsInsert m k v) q = if q = k then some v else jsGet m q := by
  induction m with
  | nil =>
    rw [jsInsert, jsGet]
    by_cases hq : q = k
    · simp [hq, jsGet]
    · have h1 : (k == q) = false := by simpa using fun he => hq he.symm
      simp [h1, hq, jsGet]
  | cons p m ih =>
    rw [jsInsert]
    by_cases hp : p.1 == k
    · rw [if_pos hp]
      have hpk : p.1 = k := by simpa using hp
      by_cases hq : q = k
      · subst hq
        rw [jsGet]
        simp [jsGet]
      · have h1 : (k == q) = false := by simpa using fun he => hq he.symm
        have h2 : (p.1 == q) = false := by
          have : ¬ p.1 = q := fun he => hq (he ▸ hpk)
          simpa using this
        rw [jsGet, jsGet]
        simp only [h1, h2, Bool.false_eq_true, if_false, if_neg hq]
    · rw [if_neg hp]
      by_cases hq0 : p.1 = q
      · have hqk : ¬ q = k := fun he => hp (by simpa using (hq0.trans he))
        rw [jsGet, jsGet]
        have h2 : (p.1 == q) = true := by simpa using hq0
        simp [h2, hqk]
      · have h2 : (p.1 == q) = false := by simpa using hq0
        rw [jsGet, jsGet]
        simp only [h2, Bool.false_eq_true, if_false, ih]

/-- The effect of one JavaScript-`Map` insertion on the key list. -/
lemma jsInsert_keys {α : Type} (m : List (String × α)) (k : String) (v : α) :
    (jsInsert m k v).map (fun p => p.1) =
      if m.any (fun p => p.1 == k) then m.map (fun p => p.1)
      else m.map (fun p => p.1) ++ [k] := by
  induction m with
  | nil => simp [jsInsert]
  | cons p m ih =>
    rw [jsInsert]
    by_cases hp : p.1 == k
    · have hpk : p.1 = k := by simpa using hp
      simp [hp, hpk]
    · have hpb : (p.1 == k) = false := by simpa using hp
      rw [if_neg (by simp [hpb]), List.map_cons, ih]
      simp only [List.any_cons, hpb, Bool.false_or]
      by_cases hany : m.any (fun p => p.1 == k)
      · rw [if_pos hany, if_pos hany, List.map_cons]
      · rw [if_neg hany, if_neg hany, List.map_cons, List.cons_append]

lemma any_key_iff {α : Type} (m : List (String × α)) (k : String) :
    m.any (fun p => p.1 == k) = true ↔ k ∈ m.map (fun p => p.1) := by
  simp only [List.any_eq_true, List.mem_map, beq_iff_eq]

lemma jsMapOf_keys_aux {α : Type} (key : α → String) (l : List α) :
    ∀ m : List (String × α),
      ((l.foldl (fun m v => jsInsert m (key v) v) m).map (fun p => p.1)) =
        m.map (fun p => p.1) ++
          SlotCalculator.firstDedup (m.map (fun p => p.1)) (l.map key) := by
  induction l with
  | nil => intro m; simp [SlotCalculator.firstDedup]
  | cons v l ih =>
    intro m
    rw [List.foldl_cons, ih (jsInsert m (key v) v), jsInsert_keys]
    by_cases hany : m.any (fun p => p.1 == key v)
    · rw [if_pos hany, List.map_cons, SlotCalculator.firstDedup,
        if_pos ((any_key_iff m (key v)).mp hany)]
    · rw [if_neg hany, List.map_cons, SlotCalculator.firstDedup,
        if_neg (fun hmem => hany ((any_key_iff m (key v)).mpr hmem))]
      rw [firstDedup_congr (l.map key) (m.map (fun p => p.1) ++ [key v])
        (key v :: m.map (fun p => p.1)) (by intro y; simp [or_comm])]
      simp [List.append_assoc]

/-- The keys of `new Map(l.map(v => [key v, v]))`, in insertion order:
the key sequence of `l`, first occurrences only. -/
lemma jsMapOf_keys {α : Type} (key : α → String) (l : List α) :
    (jsMapOf key l).map (fun p => p.1) =
      SlotCalculator.firstDedup [] (l.map key) := by
  simpa using jsMapOf_keys_aux key l []

lemma jsMapOf_get_aux {α : Type} (key : α → String) (l : List α) (k : String) :
    ∀ m : List (String × α),
      jsGet (l.foldl (fun m v => jsInsert m (key v) v) m) k =
        (l.reverse.find? (fun v => key v == k)).or (jsGet m k) := by
  induction l with
  | nil => intro m; simp
  | cons v l ih =>
    intro m
    rw [List.foldl_cons, ih (jsInsert m (key v) v), List.reverse_cons,
      List.find?_append, Option.or_assoc]
    congr 1
    rw [jsGet_jsInsert]
    by_cases hb : (key v == k) = true
    · have hk : k = key v := ((beq_iff_eq).mp hb).symm
      rw [if_pos hk]
      have hfind : [v].find? (fun v => key v == k) = some v := by
        simp [List.find?, hb]
      rw [hfind, Option.or_some]
    · have hk : ¬ k = key v := fun he => hb (by simp [he])
      rw [if_neg hk]
      have hfind : [v].find? (fun v => key v == k) = none := by
        simp only [List.find?, hb]
      rw [hfind, Option.none_or]

/-- `map.get(k)` on a map built from `l`: the last element of `l` with
key `k`, if any. -/
lemma jsMapOf_get {α : Type} (key : α → String) (l : List α) (k : String) :
    jsGet (jsMapOf key l) k = l.reverse.find? (fun v => key v == k) := by
  rw [jsMapOf, jsMapOf_get_aux]
  simp [jsGet, Option.or_none]

lemma nodup_keys_jsMapOf {α : Type} (key : α → String) (l : List α) :
    ((jsMapOf key l).map (fun p => p.1)).Nodup := by
  rw [jsMapOf_keys]
  exact nodup_firstDedup _ _

lemma jsGet_of_mem_nodup {α : Type} (m : List (String × α))
    (hn : (m.map (fun p => p.1)).Nodup) (p : String × α) (hp : p ∈ m) :
    jsGet m p.1 = some p.2 := by
  induction m with
  | nil => cases hp
  | cons q m ih =>
    rw [List.map_cons, List.nodup_cons] at hn
    rcases List.mem_cons.mp hp with rfl | hp
    · rw [jsGet]
      simp
    · have hne : (q.1 == p.1) = false := by
        have : ¬ q.1 = p.1 := fun he => hn.1 (he ▸ List.mem_map_of_mem (fun p => p.1) hp)
        simpa using this
      rw [jsGet]
      simp only [hne, Bool.false_eq_true, if_false]
      exact ih hn.2 hp

lemma mem_key_jsMapOf {α : Type} (key : α → String) (l : List α)
    (q : String × α) (hq : q ∈ jsMapOf key l) : q.1 ∈ l.map key := by
  have h1 : q.1 ∈ (jsMapOf key l).map (fun p => p.1) :=
    List.mem_map_of_mem (fun p => p.1) hq
  rw [jsMapOf_keys] at h1
  exact ((mem_firstDedup (l.map key) [] q.1).mp h1).1

lemma jsMapOf_entry_val {α : Type} (key : α → String) (l : List α)
    (p : String × α) (hp : p ∈ jsMapOf key l) :
    l.reverse.find? (fun v => key v == p.1) = some p.2 := by
  rw [← jsMapOf_get key l p.1]
  exact jsGet_of_mem_nodup _ (nodup_keys_jsMapOf key l) p hp

/-- C3 (counterexample): `compare(M, M)` is not safe for every mapping
`M`; on a hand-built self-overlapping mapping the self-comparison
reports collisions and `safe = false`. -/
theorem compare_self_not_safe_counterexample :
    (CollisionDetector.compare selfOverlapMapping selfOverlapMapping).safe = false ∧
    (CollisionDetector.compare selfOverlapMapping selfOverlapMapping).collisions ≠ [] := by
  constructor
  · rfl
  · decide

lemma removedOf_self (M : SlotMapping) : CollisionDetector.removedOf M M = [] := by
  rw [CollisionDetector.removedOf]
  have h : (CollisionDetector.keysOf M).filter
      (fun p => !((CollisionDetector.keysOf M).any (fun q => q.1 == p.1))) = [] := by
    rw [List.filter_eq_nil_iff]
    intro p hp
    have hany : (CollisionDetector.keysOf M).any (fun q => q.1 == p.1) = true :=
      List.any_eq_true.mpr ⟨p, hp, by simp⟩
    simp [hany]
  rw [h, List.map_nil]

lemma movedOf_self (M : SlotMapping) : CollisionDetector.movedOf M M = [] := by
  rw [CollisionDetector.movedOf, List.filterMap_eq_nil_iff]
  intro p hp
  have hget : jsGet (CollisionDetector.keysOf M) p.1 = some p.2 :=
    jsGet_of_mem_nodup _ (nodup_keys_jsMapOf _ _) p hp
  rw [hget]
  simp

lemma addedOf_self (M : SlotMapping) : CollisionDetector.addedOf M M = [] := by
  rw [CollisionDetector.addedOf]
  have h : (CollisionDetector.keysOf M).filter
      (fun p => !((CollisionDetector.keysOf M).any (fun q => q.1 == p.1))) = [] := by
    rw [List.filter_eq_nil_iff]
    intro p hp
    have hany : (CollisionDetector.keysOf M).any (fun q => q.1 == p.1) = true :=
      List.any_eq_true.mpr ⟨p, hp, by simp⟩
    simp [hany]
  rw [h, List.map_nil]

/-- If no two same-slot variables of `v1`/`v2` overlap without agreeing
on name and type, the collision scan with no moved keys is empty. -/
lemma collisionsOf_eq_nil (v1 v2 : SlotMapping)
    (h : ∀ a ∈ v1.vars, ∀ b ∈ v2.vars, a.slot = b.slot →
      a.offset < b.offset + b.size → b.offset < a.offset + a.size →
      a.name = b.name ∧ a.type = b.type) :
    CollisionDetector.collisionsOf v1 v2 [] = [] := by
  rw [CollisionDetector.collisionsOf, List.flatMap_eq_nil_iff]
  intro s _
  rw [List.flatMap_eq_nil_iff]
  intro a ha
  rw [List.filterMap_eq_nil_iff]
  intro b hb
  obtain ⟨haM, haS⟩ := List.mem_filter.mp ha
  obtain ⟨hbM, hbS⟩ := List.mem_filter.mp hb
  rw [CollisionDetector.innerCheck]
  rw [if_neg (by simp)]
  by_cases hov : (decide (a.offset < b.offset + b.size) &&
      decide (b.offset < a.offset + a.size)) = true
  · rw [if_pos hov]
    simp only [Bool.and_eq_true, decide_eq_true_eq] at hov
    have hslot : a.slot = b.slot := by
      have h1 : a.slot = s := by simpa using haS
      have h2 : b.slot = s := by simpa using hbS
      rw [h1, h2]
    obtain ⟨hn, ht⟩ := h a haM b hbM hslot hov.1 hov.2
    rw [if_pos (by simp [hn, ht])]
  · rw [if_neg hov]

/-- C3 (amended): `compare(M, M)` is reflexive — `safe` with all four
change lists empty — for every mapping `M` in which no two same-slot
variables overlap without agreeing on name and type. -/
theorem compare_self_reflexive (M : SlotMapping)
    (h : ∀ a ∈ M.vars, ∀ b ∈ M.vars, a.slot = b.slot →
      a.offset < b.offset + b.size → b.offset < a.offset + a.size →
      a.name = b.name ∧ a.type = b.type) :
    (CollisionDetector.compare M M).safe = true ∧
    (CollisionDetector.compare M M).collisions = [] ∧
    (CollisionDetector.compare M M).moved = [] ∧
    (CollisionDetector.compare M M).added = [] ∧
    (CollisionDetector.compare M M).removed = [] := by
  have hmoved := movedOf_self M
  have hcoll : CollisionDetector.collisionsOf M M
      ((CollisionDetector.movedOf M M).map CollisionDetector.byKey) = [] := by
    rw [hmoved, List.map_nil]
    exact collisionsOf_eq_nil M M h
  refine ⟨?_, ?_, ?_, ?_, ?_⟩
  · show (!(decide ((CollisionDetector.movedOf M M).length > 0) ||
      decide ((CollisionDetector.collisionsOf M M
        ((CollisionDetector.movedOf M M).map CollisionDetector.byKey)).length > 0))) = true
    rw [hcoll, hmoved]
    rfl
  · exact hcoll
  · exact hmoved
  · exact addedOf_self M
  · exact removedOf_self M

/-- Witness for the amended C3 at a concrete mapping. -/
theorem compare_self_reflexive_witness :
    (CollisionDetector.compare singleVarMapping singleVarMapping).safe = true ∧
    (CollisionDetector.compare singleVarMapping singleVarMapping).collisions = [] ∧
    (CollisionDetector.compare singleVarMapping singleVarMapping).moved = [] ∧
    (CollisionDetector.compare singleVarMapping singleVarMapping).added = [] ∧
    (CollisionDetector.compare singleVarMapping singleVarMapping).removed = [] :=
  compare_self_reflexive singleVarMapping (by decide)

/-- C4 (counterexample): an append-only upgrade — `v2` is exactly `v1`
plus a trailing variable with fresh key in an unused slot — is *not*
always reported safe: when `v1` itself contains overlapping distinct
variables, `compare` reports collisions and `safe = false`. -/
theorem compare_append_only_counterexample :
    appendBadV2.vars = appendBadV1.vars ++ [appendBadNewVar] ∧
    (appendBadV1.vars.all (fun v => appendBadNewVar.slot != v.slot)) = true ∧
    (appendBadV1.vars.all
      (fun v => CollisionDetector.byKey appendBadNewVar != CollisionDetector.byKey v)) = true ∧
    (CollisionDetector.compare appendBadV1 appendBadV2).safe = false ∧
    (CollisionDetector.compare appendBadV1 appendBadV2).moved = [] ∧
    (CollisionDetector.compare appendBadV1 appendBadV2).collisions ≠ [] := by
  refine ⟨rfl, rfl, rfl, rfl, rfl, ?_⟩
  decide

lemma jsInsert_of_fresh {α : Type} (m : List (String × α)) (k : String) (v : α)
    (h : ∀ p ∈ m, ¬ k = p.1) : jsInsert m k v = m ++ [(k, v)] := by
  induction m with
  | nil => rfl
  | cons q m ih =>
    rw [jsInsert]
    have hq : (q.1 == k) = false := by
      have := h q (List.mem_cons_self q m)
      simpa using fun he => this he.symm
    rw [hq]
    simp only [Bool.false_eq_true, if_false, List.cons_append]
    rw [ih (fun p hp => h p (List.mem_cons_of_mem q hp))]

lemma foldl_jsInsert_fresh {α : Type} (key : α → String) (ts : List α) :
    ∀ m : List (String × α),
      (∀ t ∈ ts, ∀ p ∈ m, ¬ key t = p.1) → (ts.map key).Nodup →
      ts.foldl (fun m v => jsInsert m (key v) v) m =
        m ++ ts.map (fun t => (key t, t)) := by
  induction ts with
  | nil => intro m _ _; simp
  | cons t ts ih =>
    intro m h hnd
    rw [List.map_cons, List.nodup_cons] at hnd
    rw [List.foldl_cons, jsInsert_of_fresh m (key t) t (h t (List.mem_cons_self t ts))]
    rw [ih (m ++ [(key t, t)]) ?_ hnd.2]
    · simp
    · intro u hu p hp
      rcases List.mem_append.mp hp with hp | hp
      · exact h u (List.mem_cons_of_mem t hu) p hp
      · have hpe : p = (key t, t) := by simpa using hp
        subst hpe
        intro he
        have he2 : key u = key t := he
        exact hnd.1 (he2 ▸ List.mem_map_of_mem key hu)

/-- After an append-only change with fresh keys, `v2`'s key map is
`v1`'s key map followed by the trailing entries. -/
lemma keysOf_append (v1 v2 : SlotMapping) (ts : List StorageVariable)
    (hv : v2.vars = v1.vars ++ ts)
    (hfresh : ∀ t ∈ ts, ∀ v ∈ v1.vars,
      ¬ CollisionDetector.byKey t = CollisionDetector.byKey v)
    (hnd : (ts.map CollisionDetector.byKey).Nodup) :
    CollisionDetector.keysOf v2 =
      CollisionDetector.keysOf v1 ++
        ts.map (fun t => (CollisionDetector.byKey t, t)) := by
  rw [CollisionDetector.keysOf, hv, jsMapOf, List.foldl_append]
  have hside : ∀ t ∈ ts,
      ∀ p ∈ v1.vars.foldl (fun m v => jsInsert m (CollisionDetector.byKey v) v) [],
        ¬ CollisionDetector.byKey t = p.1 := by
    intro t ht p hp
    have hpk := mem_key_jsMapOf CollisionDetector.byKey v1.vars p hp
    obtain ⟨v, hvmem, hkey⟩ := List.mem_map.mp hpk
    exact fun he => hfresh t ht v hvmem (he.trans hkey.symm)
  rw [foldl_jsInsert_fresh CollisionDetector.byKey ts _ hside hnd]
  rfl

/-- C4 (amended): an append-only upgrade — `v2.vars = v1.vars ++ ts` with
the trailing variables carrying pairwise-distinct fresh `(name, type)`
keys and occupying slots no `v1` variable occupies — is reported safe
with `moved` and `collisions` empty and `added` exactly the trailing
variables, provided `v1` itself has no two same-slot variables that
overlap without agreeing on name and type. -/
theorem compare_append_only_safe (v1 v2 : SlotMapping) (ts : List StorageVariable)
    (hv : v2.vars = v1.vars ++ ts)
    (hfresh : ∀ t ∈ ts, ∀ v ∈ v1.vars,
      ¬ CollisionDetector.byKey t = CollisionDetector.byKey v)
    (hnd : (ts.map CollisionDetector.byKey).Nodup)
    (hslots : ∀ t ∈ ts, ∀ v ∈ v1.vars, ¬ t.slot = v.slot)
    (hcons : ∀ a ∈ v1.vars, ∀ b ∈ v1.vars, a.slot = b.slot →
      a.offset < b.offset + b.size → b.offset < a.offset + a.size →
      a.name = b.name ∧ a.type = b.type) :
    (CollisionDetector.compare v1 v2).safe = true ∧
    (CollisionDetector.compare v1 v2).moved = [] ∧
    (CollisionDetector.compare v1 v2).collisions = [] ∧
    (CollisionDetector.compare v1 v2).added = ts := by
  have hkeys := keysOf_append v1 v2 ts hv hfresh hnd
  have hmoved : CollisionDetector.movedOf v1 v2 = [] := by
    rw [CollisionDetector.movedOf, List.filterMap_eq_nil_iff]
    intro p hp
    have hget1 : jsGet (CollisionDetector.keysOf v1) p.1 = some p.2 :=
      jsGet_of_mem_nodup _ (nodup_keys_jsMapOf _ _) p hp
    rw [hkeys, jsGet_append, hget1, Option.or_some]
    simp
  have hremoved : CollisionDetector.removedOf v1 v2 = [] := by
    rw [CollisionDetector.removedOf]
    have h : (CollisionDetector.keysOf v1).filter
        (fun p => !((CollisionDetector.keysOf v2).any (fun q => q.1 == p.1))) = [] := by
      rw [List.filter_eq_nil_iff]
      intro p hp
      have hany : (CollisionDetector.keysOf v2).any (fun q => q.1 == p.1) = true := by
        refine List.any_eq_true.mpr ⟨p, ?_, by simp⟩
        rw [hkeys]
        exact List.mem_append_left _ hp
      simp [hany]
    rw [h, List.map_nil]
  have hadded : CollisionDetector.addedOf v1 v2 = ts := by
    rw [CollisionDetector.addedOf, hkeys, List.filter_append]
    have h1 : (CollisionDetector.keysOf v1).filter
        (fun p => !((CollisionDetector.keysOf v1).any (fun q => q.1 == p.1))) = [] := by
      rw [List.filter_eq_nil_iff]
      intro p hp
      have hany : (CollisionDetector.keysOf v1).any (fun q => q.1 == p.1) = true :=
        List.any_eq_true.mpr ⟨p, hp, by simp⟩
      simp [hany]
    have h2 : (ts.map (fun t => (CollisionDetector.byKey t, t))).filter
        (fun p => !((CollisionDetector.keysOf v1).any (fun q => q.1 == p.1))) =
        ts.map (fun t => (CollisionDetector.byKey t, t)) := by
      rw [List.filter_eq_self]
      intro p hp
      obtain ⟨t, ht, rfl⟩ := List.mem_map.mp hp
      have hany : ¬ (CollisionDetector.keysOf v1).any
          (fun q => q.1 == CollisionDetector.byKey t) = true := by
        intro hc
        obtain ⟨q, hq, hqe⟩ := List.any_eq_true.mp hc
        have hqk := mem_key_jsMapOf CollisionDetector.byKey v1.vars q hq
        obtain ⟨v, hvmem, hkey⟩ := List.mem_map.mp hqk
        have : q.1 = CollisionDetector.byKey t := by simpa using hqe
        exact hfresh t ht v hvmem (this ▸ hkey).symm
      simp [hany]
    rw [h1, h2, List.nil_append, List.map_map]
    exact List.map_id ts
  have hcoll : CollisionDetector.collisionsOf v1 v2
      ((CollisionDetector.movedOf v1 v2).map CollisionDetector.byKey) = [] := by
    rw [hmoved, List.map_nil]
    apply collisionsOf_eq_nil
    intro a ha b hb hslot hov1 hov2
    rw [hv] at hb
    rcases List.mem_append.mp hb with hb | hb
    · exact hcons a ha b hb hslot hov1 hov2
    · exact absurd hslot.symm (hslots b hb a ha)
  refine ⟨?_, hmoved, hcoll, hadded⟩
  show (!(decide ((CollisionDetector.movedOf v1 v2).length > 0) ||
    decide ((CollisionDetector.collisionsOf v1 v2
      ((CollisionDetector.movedOf v1 v2).map CollisionDetector.byKey)).length > 0))) = true
  rw [hcoll, hmoved]
  rfl

/-- Witness for the amended C4 at a concrete append-only upgrade. -/
theorem compare_append_only_safe_witness :
    (CollisionDetector.compare singleVarMapping appendGoodV2).safe = true ∧
    (CollisionDetector.compare singleVarMapping appendGoodV2).moved = [] ∧
    (CollisionDetector.compare singleVarMapping appendGoodV2).collisions = [] ∧
    (CollisionDetector.compare singleVarMapping appendGoodV2).added =
      [ { name := "y", type := "address", slot := 1, offset := 0, size := 20,
          packed := true, isStateVariable := true } ] :=
  compare_append_only_safe singleVarMapping appendGoodV2
    [ { name := "y", type := "address", slot := 1, offset := 0, size := 20,
        packed := true, isStateVariable := true } ]
    (by decide) (by decide) (by decide) (by decide) (by decide)

lemma mem_typeChangedPart (v1 v2 : SlotMapping) (c : UpgradeChange)
    (hc : c ∈ UpgradeAnalyzer.typeChangedPart v1 v2) :
    c.type = "typeChanged" ∧ c.severity = "critical" := by
  obtain ⟨p, _, hf⟩ := List.mem_filterMap.mp hc
  rw [UpgradeAnalyzer.typeChangedFor] at hf
  split at hf
  · split at hf
    · cases hf
      exact ⟨rfl, rfl⟩
    · cases hf
  · cases hf

lemma typeChangedFor_isSome (v1 v2 : SlotMapping) (p : String × StorageVariable)
    (h2 : lastTypeOf v2 p.1 = some p.2.type) :
    (UpgradeAnalyzer.typeChangedFor v1 p).isSome = typeDifferAt v1 v2 p.1 := by
  rw [UpgradeAnalyzer.typeChangedFor, typeDifferAt, h2]
  have hget : jsGet (jsMapOf UpgradeAnalyzer.nameKey v1.vars) p.1 =
      v1.vars.reverse.find? (fun v => v.name == p.1) :=
    jsMapOf_get UpgradeAnalyzer.nameKey v1.vars p.1
  rw [hget, lastTypeOf]
  cases hfind : v1.vars.reverse.find? (fun v => v.name == p.1) with
  | none => simp
  | some w =>
    simp only [Option.map_some]
    by_cases hw : (w.type != p.2.type) = true
    · simp [hw]
    · simp only [Bool.not_eq_true] at hw
      simp [hw]

lemma typeChangedPart_length (v1 v2 : SlotMapping) :
    (UpgradeAnalyzer.typeChangedPart v1 v2).length = (namesWithTypeChanged v1 v2).length := by
  rw [UpgradeAnalyzer.typeChangedPart, List.length_filterMap_eq_countP]
  have hcong : ∀ p ∈ jsMapOf UpgradeAnalyzer.nameKey v2.vars,
      ((UpgradeAnalyzer.typeChangedFor v1 p).isSome = true) ↔
        ((fun p : String × StorageVariable => typeDifferAt v1 v2 p.1) p = true) := by
    intro p hp
    have hval : v2.vars.reverse.find? (fun v => v.name == p.1) = some p.2 :=
      jsMapOf_entry_val UpgradeAnalyzer.nameKey v2.vars p hp
    have h2 : lastTypeOf v2 p.1 = some p.2.type := by
      rw [lastTypeOf, hval]
      rfl
    rw [typeChangedFor_isSome v1 v2 p h2]
  rw [List.countP_congr hcong]
  have hmapped : (jsMapOf UpgradeAnalyzer.nameKey v2.vars).countP
      (fun p => typeDifferAt v1 v2 p.1) =
      ((jsMapOf UpgradeAnalyzer.nameKey v2.vars).map (fun p => p.1)).countP
        (typeDifferAt v1 v2) := by
    rw [List.countP_map]
    rfl
  rw [hmapped, jsMapOf_keys, namesWithTypeChanged, ← List.countP_eq_length_filter]
  rfl

lemma countP_map_of_all {β : Type} (f : β → UpgradeChange) (l : List β)
    (p : UpgradeChange → Bool) (h : ∀ b, p (f b) = true) :
    (l.map f).countP p = l.length := by
  rw [List.countP_map]
  exact List.countP_eq_length.mpr (fun a _ => h a)

lemma countP_map_of_none {β : Type} (f : β → UpgradeChange) (l : List β)
    (p : UpgradeChange → Bool) (h : ∀ b, p (f b) = false) :
    (l.map f).countP p = 0 := by
  rw [List.countP_map]
  refine List.countP_eq_zero.mpr (fun a _ => ?_)
  show ¬ p (f a) = true
  simp [h a]

/-- C5: the change list of `analyze` holds exactly one change per
collision, per moved variable, per removed variable, per added variable,
and per name declared in both versions with differing type; severities
are critical / critical / warning / safe / critical respectively. -/
theorem analyze_changes_counts_and_severities (v1 v2 : SlotMapping) :
    ((UpgradeAnalyzer.analyze v1 v2).changes.countP (fun c => c.type == "collision")) =
      (CollisionDetector.compare v1 v2).collisions.length ∧
    ((UpgradeAnalyzer.analyze v1 v2).changes.countP (fun c => c.type == "moved")) =
      (CollisionDetector.compare v1 v2).moved.length ∧
    ((UpgradeAnalyzer.analyze v1 v2).changes.countP (fun c => c.type == "removed")) =
      (CollisionDetector.compare v1 v2).removed.length ∧
    ((UpgradeAnalyzer.analyze v1 v2).changes.countP (fun c => c.type == "added")) =
      (CollisionDetector.compare v1 v2).added.length ∧
    ((UpgradeAnalyzer.analyze v1 v2).changes.countP (fun c => c.type == "typeChanged")) =
      (namesWithTypeChanged v1 v2).length ∧
    ((UpgradeAnalyzer.analyze v1 v2).changes.all
      (fun c => c.severity == severityForType c.type)) = true := by
  have hch : (UpgradeAnalyzer.analyze v1 v2).changes =
      (CollisionDetector.compare v1 v2).collisions.map UpgradeAnalyzer.mkCollisionChange ++
      (CollisionDetector.compare v1 v2).moved.map
        (UpgradeAnalyzer.mkMovedChange (jsMapOf CollisionDetector.byKey v1.vars)) ++
      (CollisionDetector.compare v1 v2).removed.map UpgradeAnalyzer.mkRemovedChange ++
      (CollisionDetector.compare v1 v2).added.map UpgradeAnalyzer.mkAddedChange ++
      UpgradeAnalyzer.typeChangedPart v1 v2 := rfl
  refine ⟨?_, ?_, ?_, ?_, ?_, ?_⟩
  · rw [hch]
    simp only [List.countP_append]
    rw [countP_map_of_all _ _ _ (fun b => rfl),
      countP_map_of_none _ _ _ (fun b => rfl),
      countP_map_of_none _ _ _ (fun b => rfl),
      countP_map_of_none _ _ _ (fun b => rfl),
      List.countP_eq_zero.mpr (fun c hc => by
        simp [(mem_typeChangedPart v1 v2 c hc).1])]
    omega
  · rw [hch]
    simp only [List.countP_append]
    rw [countP_map_of_none _ _ _ (fun b => rfl),
      countP_map_of_all _ _ _ (fun b => rfl),
      countP_map_of_none _ _ _ (fun b => rfl),
      countP_map_of_none _ _ _ (fun b => rfl),
      List.countP_eq_zero.mpr (fun c hc => by
        simp [(mem_typeChangedPart v1 v2 c hc).1])]
    omega
  · rw [hch]
    simp only [List.countP_append]
    rw [countP_map_of_none _ _ _ (fun b => rfl),
      countP_map_of_none _ _ _ (fun b => rfl),
      countP_map_of_all _ _ _ (fun b => rfl),
      countP_map_of_none _ _ _ (fun b => rfl),
      List.countP_eq_zero.mpr (fun c hc => by
        simp [(mem_typeChangedPart v1 v2 c hc).1])]
    omega
  · rw [hch]
    simp only [List.countP_append]
    rw [countP_map_of_none _ _ _ (fun b => rfl),
      countP_map_of_none _ _ _ (fun b => rfl),
      countP_map_of_none _ _ _ (fun b => rfl),
      countP_map_of_all _ _ _ (fun b => rfl),
      List.countP_eq_zero.mpr (fun c hc => by
        simp [(mem_typeChangedPart v1 v2 c hc).1])]
    omega
  · rw [hch]
    simp only [List.countP_append]
    rw [countP_map_of_none _ _ _ (fun b => rfl),
      countP_map_of_none _ _ _ (fun b => rfl),
      countP_map_of_none _ _ _ (fun b => rfl),
      countP_map_of_none _ _ _ (fun b => rfl),
      List.countP_eq_length.mpr (fun c hc => by
        simp [(mem_typeChangedPart v1 v2 c hc).1]),
      typeChangedPart_length]
    omega
  · refine List.all_eq_true.mpr (fun c hc => ?_)
    rw [hch] at hc
    rcases List.mem_append.mp hc with hc | hc5
    · rcases List.mem_append.mp hc with hc | hc4
      · rcases List.mem_append.mp hc with hc | hc3
        · rcases List.mem_append.mp hc with hc1 | hc2
          · obtain ⟨b, _, rfl⟩ := List.mem_map.mp hc1
            rfl
          · obtain ⟨b, _, rfl⟩ := List.mem_map.mp hc2
            rfl
        · obtain ⟨b, _, rfl⟩ := List.mem_map.mp hc3
          rfl
      · obtain ⟨b, _, rfl⟩ := List.mem_map.mp hc4
        rfl
    · obtain ⟨ht, hs⟩ := mem_typeChangedPart v1 v2 c hc5
      rw [hs, ht]
      decide

lemma assessCompatibility_spec (changes : List UpgradeChange) (rep : CollisionReport) :
    (UpgradeAnalyzer.assessCompatibility changes rep).score =
      max 0 (100 -
        40 * ((changes.countP (fun c => c.severity == "critical")) : Int) -
        15 * ((changes.countP (fun c => c.severity == "warning")) : Int)) ∧
    (UpgradeAnalyzer.assessCompatibility changes rep).level =
      (if 0 < changes.countP (fun c => c.severity == "critical") then "critical"
       else if 2 < changes.countP (fun c => c.severity == "warning") then "unsafe"
       else if 0 < changes.countP (fun c => c.severity == "warning") then "caution"
       else "safe") := by
  constructor
  · rw [UpgradeAnalyzer.assessCompatibility]
    simp only [← List.countP_eq_length_filter]
    split_ifs <;> rfl
  · rw [UpgradeAnalyzer.assessCompatibility]
    simp only [← List.countP_eq_length_filter]
    split_ifs <;> rfl

/-- C6: the compatibility of `analyze` scores
`max 0 (100 − 40·critical − 15·warning)` — hence always within 0–100 —
and grades `critical`/`unsafe`/`caution`/`safe` by the critical and
warning counts. -/
theorem analyze_compatibility_score_level (v1 v2 : SlotMapping) :
    (UpgradeAnalyzer.analyze v1 v2).compatibility.score =
      max 0 (100 -
        40 * (((UpgradeAnalyzer.analyze v1 v2).changes.countP
          (fun c => c.severity == "critical")) : Int) -
        15 * (((UpgradeAnalyzer.analyze v1 v2).changes.countP
          (fun c => c.severity == "warning")) : Int)) ∧
    0 ≤ (UpgradeAnalyzer.analyze v1 v2).compatibility.score ∧
    (UpgradeAnalyzer.analyze v1 v2).compatibility.score ≤ 100 ∧
    (UpgradeAnalyzer.analyze v1 v2).compatibility.level =
      (if 0 < (UpgradeAnalyzer.analyze v1 v2).changes.countP
          (fun c => c.severity == "critical") then "critical"
       else if 2 < (UpgradeAnalyzer.analyze v1 v2).changes.countP
          (fun c => c.severity == "warning") then "unsafe"
       else if 0 < (UpgradeAnalyzer.analyze v1 v2).changes.countP
          (fun c => c.severity == "warning") then "caution"
       else "safe") := by
  have hcompat : (UpgradeAnalyzer.analyze v1 v2).compatibility =
      UpgradeAnalyzer.assessCompatibility
        (UpgradeAnalyzer.identifyChanges v1 v2 (CollisionDetector.compare v1 v2))
        (CollisionDetector.compare v1 v2) := rfl
  have hch : (UpgradeAnalyzer.analyze v1 v2).changes =
      UpgradeAnalyzer.identifyChanges v1 v2 (CollisionDetector.compare v1 v2) := rfl
  rw [hcompat, hch]
  obtain ⟨hs, hl⟩ := assessCompatibility_spec
    (UpgradeAnalyzer.identifyChanges v1 v2 (CollisionDetector.compare v1 v2))
    (CollisionDetector.compare v1 v2)
  refine ⟨hs, ?_, ?_, hl⟩
  · rw [hs]
    exact le_max_left 0 _
  · rw [hs]
    exact max_le (by norm_num) (by omega)

lemma efficiencyChange_isSome_aux (v1 v2 : SlotMapping) :
    ((UpgradeAnalyzer.analyze v1 v2).storageGrowth.efficiencyChange).isSome = true ↔
      (v1.totalSlots ≠ 0 ∧ v2.totalSlots ≠ 0) := by
  have hsg : (UpgradeAnalyzer.analyze v1 v2).storageGrowth =
      UpgradeAnalyzer.calculateStorageGrowth v1 v2 := rfl
  rw [hsg, UpgradeAnalyzer.calculateStorageGrowth]
  by_cases h1 : v1.totalSlots = 0 <;> by_cases h2 : v2.totalSlots = 0 <;>
    simp [jsDiv, h1, h2, Nat.cast_eq_zero, Nat.mul_eq_zero]

/-- C7 (counterexample): on the degenerate zero-slot mapping, the
efficiency-change division has divisor 0, so `efficiencyChange` is not a
finite number (`none`, modelling JavaScript NaN) rather than a
well-defined value. -/
theorem analyze_empty_efficiencyChange_none :
    (SlotCalculator.calculateSlots emptyContract).totalSlots = 0 ∧
    (UpgradeAnalyzer.analyze (SlotCalculator.calculateSlots emptyContract)
      (SlotCalculator.calculateSlots emptyContract)).storageGrowth.efficiencyChange =
      none := by
  refine ⟨rfl, ?_⟩
  refine Option.not_isSome_iff_eq_none.mp ?_
  rw [efficiencyChange_isSome_aux]
  have h0 : (SlotCalculator.calculateSlots emptyContract).totalSlots = 0 := rfl
  simp [h0]

/-- C7 (amended): `analyze` is total — it returns a result on every
input, the degenerate empty mappings included — and its
`efficiencyChange` is a finite number exactly when both mappings have a
nonzero `totalSlots`; on zero-slot input it is NaN (`none`). -/
theorem analyze_efficiencyChange_isSome_iff (v1 v2 : SlotMapping) :
    ((UpgradeAnalyzer.analyze v1 v2).storageGrowth.efficiencyChange).isSome = true ↔
      (v1.totalSlots ≠ 0 ∧ v2.totalSlots ≠ 0) :=
  efficiencyChange_isSome_aux v1 v2

/-- C9 (code behaviour at the failing input): the calculator assigns a
storage slot to a variable flagged constant — the flag is never
consulted, so the variable appears in the output mapping at slot 0. -/
theorem calculateSlots_includes_constant_variable :
    (constContract.stateVariables.all (fun v => v.isConstant)) = true ∧
    (SlotCalculator.calculateSlots constContract).vars =
      [ { name := "MAX", type := "uint256", slot := 0, offset := 0, size := 32,
          packed := false, isStateVariable := true } ] ∧
    (SlotCalculator.calculateSlots constContract).totalSlots = 1 :=
  ⟨rfl, rfl, rfl⟩
